import Mathlib

/-!
Verification of the Calificame CRUD backend (Cloudflare worker / pages
function variants) against its natural-language specification.

The repository holds three near-identical variants of the request handler:

* `src/functions/api/[[route]].js` — the deployed pages function; embedded
  below as the top-level handler definitions and the router `onRequest`.
* `src/unnamed/part_001` — the variant with the full list routing and the
  ownership-checking `deleteList`; embedded in namespace `PartOne`.
* `src/unnamed/part_000` — an earlier worker variant; its handlers coincide
  with the deployed ones for everything the claims touch.

Report sub-documents travel through the platform functions
`JSON.stringify` / `JSON.parse`; those are embedded as an executable
serializer `Json.stringify` and parser `Json.parse` over a JSON value type,
together with a proved round-trip theorem, so that the codec claims are
settled against a real encoding rather than an assumed inverse.

Modelling notes, applied uniformly:

* D1 result rows are embedded as Lean structures; the `created_at` /
  `updated_at` columns (filled by the store, never read by a handler) are
  not carried.
* The numbers of JSON are embedded as integers: every numeric value the
  handlers produce or compare is integral, and no claim involves fractional
  or overflowing numbers.
* Each handler that the source gives a token or UUID from
  `crypto.randomUUID()` receives it as an explicit argument; freshness of
  a generated value is a hypothesis where a claim needs it.
* HTTP responses are embedded as status plus JSON body; the constant CORS
  headers attached to every response carry no claim-relevant information.
-/

/-- A JSON value: the data request bodies, stored sub-documents and
response bodies range over. -/
inductive Json where
  | null
  | bool (b : Bool)
  | num (n : Int)
  | str (s : String)
  | arr (xs : List Json)
  | obj (fs : List (String × Json))

namespace Json

/-- Escape one character as in the text `JSON.stringify` emits: quote,
backslash and the common control characters get a backslash escape. -/
def escChar (c : Char) : List Char :=
  if c = '"' then ['\\', '"']
  else if c = '\\' then ['\\', '\\']
  else if c = '\n' then ['\\', 'n']
  else if c = '\t' then ['\\', 't']
  else if c = '\r' then ['\\', 'r']
  else [c]

/-- Escape a character list (the body of a JSON string literal). -/
def escapeChars : List Char → List Char
  | [] => []
  | c :: cs => escChar c ++ escapeChars cs

/-- Decimal digits of a natural number, most significant first; the fuel
argument keeps the recursion structural so that terms evaluate. -/
def natCharsAux : Nat → Nat → List Char
  | 0, _ => []
  | f + 1, n =>
    if n < 10 then [Nat.digitChar n]
    else natCharsAux f (n / 10) ++ [Nat.digitChar (n % 10)]

/-- Decimal digits of a natural number, most significant first. -/
def natChars (n : Nat) : List Char :=
  natCharsAux (n + 1) n

/-- The decimal text of an integer, as `JSON.stringify` prints one. -/
def emitInt (n : Int) : List Char :=
  if n < 0 then '-' :: natChars (-n).toNat else natChars n.toNat

mutual

/-- The characters `JSON.stringify` emits for a value (no whitespace). -/
def emitVal : Json → List Char
  | .null => "null".data
  | .bool b => if b then "true".data else "false".data
  | .num n => emitInt n
  | .str s => '"' :: escapeChars s.data ++ ['"']
  | .arr xs => '[' :: emitElems xs ++ [']']
  | .obj fs => '\x7b' :: emitFields fs ++ ['\x7d']

/-- Array elements, comma separated. -/
def emitElems : List Json → List Char
  | [] => []
  | [x] => emitVal x
  | x :: y :: xs => emitVal x ++ ',' :: emitElems (y :: xs)

/-- Object members, comma separated; each is a quoted escaped key, a colon
and the value. -/
def emitFields : List (String × Json) → List Char
  | [] => []
  | [(k, v)] => '"' :: escapeChars k.data ++ '"' :: ':' :: emitVal v
  | (k, v) :: f :: fs =>
      ('"' :: escapeChars k.data ++ '"' :: ':' :: emitVal v) ++ ',' :: emitFields (f :: fs)

end

/-- The text `JSON.stringify` produces for a value. -/
def stringify (v : Json) : String :=
  String.mk (emitVal v)

/-- Undo `escChar` on an escape letter. -/
def unescChar (c : Char) : Option Char :=
  if c = '"' then some '"'
  else if c = '\\' then some '\\'
  else if c = 'n' then some '\n'
  else if c = 't' then some '\t'
  else if c = 'r' then some '\r'
  else none

/-- Parse the body of a JSON string literal up to its closing quote,
returning the unescaped characters and the input after the quote. -/
def parseStrBody : List Char → Option (List Char × List Char)
  | [] => none
  | c :: cs =>
    if c = '\\' then
      match cs with
      | [] => none
      | e :: cs' =>
        match unescChar e with
        | none => none
        | some d =>
          match parseStrBody cs' with
          | none => none
          | some (s, r) => some (d :: s, r)
    else if c = '"' then some ([], cs)
    else
      match parseStrBody cs with
      | none => none
      | some (s, r) => some (c :: s, r)

/-- Consume a maximal run of decimal digits, accumulating their value. -/
def readDigits : Nat → List Char → Nat × List Char
  | acc, [] => (acc, [])
  | acc, c :: cs =>
    if c.isDigit then readDigits (acc * 10 + (c.toNat - 48)) cs
    else (acc, c :: cs)

/-- Parse an optionally signed run of decimal digits as an integer. -/
def parseIntChars : List Char → Option (Int × List Char)
  | [] => none
  | c :: cs =>
    if c = '-' then
      match cs with
      | [] => none
      | d :: _ =>
        if d.isDigit then
          let p := readDigits 0 cs
          some (-(p.1 : Int), p.2)
        else none
    else if c.isDigit then
      let p := readDigits 0 (c :: cs)
      some ((p.1 : Int), p.2)
    else none

mutual

/-- Recursive-descent JSON parser over characters; the fuel argument
bounds the nesting work and keeps the recursion structural. Returns the
value and the unconsumed input. -/
def parseVal : Nat → List Char → Option (Json × List Char)
  | 0, _ => none
  | f + 1, cs =>
    match cs with
    | [] => none
    | c :: rest =>
      if c = 'n' then
        match rest with
        | 'u' :: 'l' :: 'l' :: r => some (.null, r)
        | _ => none
      else if c = 't' then
        match rest with
        | 'r' :: 'u' :: 'e' :: r => some (.bool true, r)
        | _ => none
      else if c = 'f' then
        match rest with
        | 'a' :: 'l' :: 's' :: 'e' :: r => some (.bool false, r)
        | _ => none
      else if c = '"' then
        match parseStrBody rest with
        | some (s, r) => some (.str (String.mk s), r)
        | none => none
      else if c = '[' then
        match rest with
        | ']' :: r => some (.arr [], r)
        | _ =>
          match parseElems f rest with
          | some (xs, r) => some (.arr xs, r)
          | none => none
      else if c = '\x7b' then
        match rest with
        | '\x7d' :: r => some (.obj [], r)
        | _ =>
          match parseFields f rest with
          | some (fs, r) => some (.obj fs, r)
          | none => none
      else
        match parseIntChars cs with
        | some (n, r) => some (.num n, r)
        | none => none

/-- Parse one or more comma-separated array elements and the closing
bracket. -/
def parseElems : Nat → List Char → Option (List Json × List Char)
  | 0, _ => none
  | f + 1, cs =>
    match parseVal f cs with
    | none => none
    | some (v, r) =>
      match r with
      | ',' :: r' =>
        match parseElems f r' with
        | some (xs, r'') => some (v :: xs, r'')
        | none => none
      | ']' :: r' => some ([v], r')
      | _ => none

/-- Parse one or more comma-separated object members and the closing
brace. -/
def parseFields : Nat → List Char → Option (List (String × Json) × List Char)
  | 0, _ => none
  | f + 1, cs =>
    match cs with
    | '"' :: cs1 =>
      match parseStrBody cs1 with
      | none => none
      | some (k, cs2) =>
        match cs2 with
        | ':' :: cs3 =>
          match parseVal f cs3 with
          | none => none
          | some (v, r) =>
            match r with
            | ',' :: r' =>
              match parseFields f r' with
              | some (fs, r'') => some ((String.mk k, v) :: fs, r'')
              | none => none
            | '\x7d' :: r' => some ([(String.mk k, v)], r')
            | _ => none
        | _ => none
    | _ => none

end

/-- The embedded `JSON.parse`: a value is returned only when it consumes
the whole input. -/
def parse (s : String) : Option Json :=
  match parseVal (s.data.length + 1) s.data with
  | some (v, []) => some v
  | _ => none

end Json

namespace Json

/-- All characters `natCharsAux` emits are decimal digits. -/
theorem natCharsAux_isDigit : ∀ f n c, c ∈ natCharsAux f n → c.isDigit = true := by
  intro f
  induction f with
  | zero => intro n c h; simp [natCharsAux] at h
  | succ f ih =>
    intro n c h
    rw [natCharsAux] at h
    by_cases h10 : n < 10
    · rw [if_pos h10] at h
      simp only [List.mem_singleton] at h
      subst h
      interval_cases n <;> decide
    · rw [if_neg h10] at h
      rcases List.mem_append.mp h with h' | h'
      · exact ih _ _ h'
      · simp only [List.mem_singleton] at h'
        subst h'
        have : n % 10 < 10 := Nat.mod_lt _ (by omega)
        interval_cases hm : n % 10 <;> simp_all <;> decide

/-- With positive fuel, `natCharsAux` emits at least one character. -/
theorem natCharsAux_ne_nil (f n : Nat) : natCharsAux (f + 1) n ≠ [] := by
  rw [natCharsAux]
  by_cases h10 : n < 10
  · rw [if_pos h10]; simp
  · rw [if_neg h10]; simp

/-- The digit list does not depend on the fuel once the fuel exceeds the
number. -/
theorem natCharsAux_fuel : ∀ f g n, n < f → n < g → natCharsAux f n = natCharsAux g n := by
  intro f
  induction f with
  | zero => intro g n h; omega
  | succ f ih =>
    intro g n hf hg
    match g, hg with
    | g + 1, hg =>
      rw [natCharsAux, natCharsAux]
      by_cases h10 : n < 10
      · rw [if_pos h10, if_pos h10]
      · rw [if_neg h10, if_neg h10]
        have hd : n / 10 < n := Nat.div_lt_self (by omega) (by omega)
        rw [ih g (n / 10) (by omega) (by omega)]

/-- Heads that stop the digit reader: an empty input or a non-digit. -/
def noDigitHead : List Char → Prop
  | [] => True
  | c :: _ => c.isDigit = false

/-- The digit reader folds an all-digit block and leaves the rest alone. -/
theorem readDigits_append : ∀ ds acc rest, (∀ c ∈ ds, c.isDigit = true) →
    readDigits acc (ds ++ rest) =
      readDigits (ds.foldl (fun a c => a * 10 + (c.toNat - 48)) acc) rest := by
  intro ds
  induction ds with
  | nil => intro acc rest _; simp
  | cons c cs ih =>
    intro acc rest h
    have hc : c.isDigit = true := h c (by simp)
    simp only [List.cons_append, readDigits, if_pos hc, List.foldl_cons]
    exact ih _ _ (fun d hd => h d (by simp [hd]))

/-- The digit reader stops at once on a non-digit head. -/
theorem readDigits_stop (acc : Nat) (rest : List Char) (h : noDigitHead rest) :
    readDigits acc rest = (acc, rest) := by
  match rest, h with
  | [], _ => rfl
  | c :: cs, h => simp only [readDigits, noDigitHead] at h ⊢; rw [if_neg (by simp [h])]

/-- Folding the emitted digits of `n` over `acc` shifts `acc` and adds `n`. -/
theorem foldl_natCharsAux : ∀ f n acc, n < f →
    (natCharsAux f n).foldl (fun a c => a * 10 + (c.toNat - 48)) acc =
      acc * 10 ^ (natCharsAux f n).length + n := by
  intro f
  induction f with
  | zero => intro n acc h; omega
  | succ f ih =>
    intro n acc hf
    rw [natCharsAux]
    by_cases h10 : n < 10
    · rw [if_pos h10]
      have hd : (Nat.digitChar n).toNat - 48 = n := by interval_cases n <;> decide
      simp [hd]
    · rw [if_neg h10]
      have hn : n / 10 < f := by
        have := Nat.div_lt_self (show 0 < n by omega) (show 1 < 10 by omega)
        omega
      have hm : (Nat.digitChar (n % 10)).toNat - 48 = n % 10 := by
        have : n % 10 < 10 := Nat.mod_lt _ (by omega)
        interval_cases hmm : n % 10 <;> simp_all <;> decide
      rw [List.foldl_append, ih _ _ hn]
      simp only [List.foldl_cons, List.foldl_nil, List.length_append, List.length_singleton]
      rw [hm, pow_succ]
      have := Nat.div_add_mod n 10
      ring_nf
      omega

/-- Reading the emitted digits of `n` with an untouched tail yields `n`. -/
theorem readDigits_natChars (n : Nat) (rest : List Char) (h : noDigitHead rest) :
    readDigits 0 (natChars n ++ rest) = (n, rest) := by
  have hall : ∀ c ∈ natChars n, c.isDigit = true := fun c hc => natCharsAux_isDigit _ _ _ hc
  rw [readDigits_append _ _ _ hall]
  have hf := foldl_natCharsAux (n + 1) n 0 (by omega)
  unfold natChars
  rw [hf, readDigits_stop _ _ h]
  simp

/-- The head of the emitted digits of a natural number: it exists and is a
digit. -/
theorem natChars_head (n : Nat) : ∃ d ds, natChars n = d :: ds ∧ d.isDigit = true := by
  unfold natChars
  rcases hh : natCharsAux (n + 1) n with _ | ⟨d, ds⟩
  · exact absurd hh (natCharsAux_ne_nil _ _)
  · exact ⟨d, ds, rfl, natCharsAux_isDigit _ _ _ (by rw [hh]; simp)⟩

/-- A digit character differs from every structural character the parser
dispatches on. -/
theorem isDigit_ne {c : Char} (h : c.isDigit = true) (c' : Char)
    (h' : c'.isDigit = false) : c ≠ c' := by
  intro he
  rw [he, h'] at h
  cases h

/-- Round trip for the integer scanner, given a non-digit tail. -/
theorem parseIntChars_emitInt (n : Int) (rest : List Char) (h : noDigitHead rest) :
    parseIntChars (emitInt n ++ rest) = some (n, rest) := by
  unfold emitInt
  by_cases hneg : n < 0
  · rw [if_pos hneg]
    obtain ⟨d, ds, hds, hdig⟩ := natChars_head (-n).toNat
    have hcons : ('-' :: natChars (-n).toNat) ++ rest = '-' :: d :: (ds ++ rest) := by
      rw [hds]; rfl
    have hback : d :: (ds ++ rest) = natChars (-n).toNat ++ rest := by rw [hds]; rfl
    rw [hcons]
    simp only [parseIntChars, if_pos (rfl : ('-' : Char) = '-'), if_pos hdig]
    rw [hback, readDigits_natChars _ _ h]
    simp only [if_true, Option.some.injEq, Prod.mk.injEq]
    exact ⟨by omega, trivial⟩
  · rw [if_neg hneg]
    obtain ⟨d, ds, hds, hdig⟩ := natChars_head n.toNat
    have hcons : natChars n.toNat ++ rest = d :: (ds ++ rest) := by rw [hds]; rfl
    have hback : d :: (ds ++ rest) = natChars n.toNat ++ rest := hcons.symm
    rw [hcons]
    have hdm : d ≠ '-' := isDigit_ne hdig '-' (by decide)
    simp only [parseIntChars, if_neg hdm, if_pos hdig]
    rw [hback, readDigits_natChars _ _ h]
    simp only [Option.some.injEq, Prod.mk.injEq]
    exact ⟨by omega, trivial⟩

/-- Unfolding lemma for the string-body parser at a cons cell. -/
theorem parseStrBody_cons (c : Char) (cs : List Char) :
    parseStrBody (c :: cs) =
      if c = '\\' then
        match cs with
        | [] => none
        | e :: cs' =>
          match unescChar e with
          | none => none
          | some d =>
            match parseStrBody cs' with
            | none => none
            | some (s, r) => some (d :: s, r)
      else if c = '"' then some ([], cs)
      else
        match parseStrBody cs with
        | none => none
        | some (s, r) => some (c :: s, r) := by
  rw [parseStrBody.eq_def]

/-- Round trip for string bodies: parsing the escaped characters followed
by the closing quote recovers the original characters. -/
theorem parseStrBody_escape : ∀ s rest,
    parseStrBody (escapeChars s ++ '"' :: rest) = some (s, rest) := by
  intro s
  induction s with
  | nil =>
    intro rest
    show parseStrBody ('"' :: rest) = _
    rw [parseStrBody_cons, if_neg (by decide), if_pos rfl]
  | cons c cs ih =>
    intro rest
    have hsplit : escapeChars (c :: cs) ++ '"' :: rest
        = escChar c ++ (escapeChars cs ++ '"' :: rest) := by
      show (escChar c ++ escapeChars cs) ++ _ = _
      rw [List.append_assoc]
    rw [hsplit]
    unfold escChar
    split_ifs with h1 h2 h3 h4 h5
    · subst h1; simp [parseStrBody_cons, unescChar, ih]
    · subst h2; simp [parseStrBody_cons, unescChar, ih]
    · subst h3; simp [parseStrBody_cons, unescChar, ih]
    · subst h4; simp [parseStrBody_cons, unescChar, ih]
    · subst h5; simp [parseStrBody_cons, unescChar, ih]
    · simp only [List.singleton_append, parseStrBody_cons, if_neg h2, if_neg h1, ih]

/-- Unfolding lemma for the value parser at successor fuel and a cons
cell. -/
theorem parseVal_succ (f : Nat) (c : Char) (rest : List Char) :
    parseVal (f + 1) (c :: rest) =
      if c = 'n' then
        match rest with
        | 'u' :: 'l' :: 'l' :: r => some (.null, r)
        | _ => none
      else if c = 't' then
        match rest with
        | 'r' :: 'u' :: 'e' :: r => some (.bool true, r)
        | _ => none
      else if c = 'f' then
        match rest with
        | 'a' :: 'l' :: 's' :: 'e' :: r => some (.bool false, r)
        | _ => none
      else if c = '"' then
        match parseStrBody rest with
        | some (s, r) => some (.str (String.mk s), r)
        | none => none
      else if c = '[' then
        match rest with
        | ']' :: r => some (.arr [], r)
        | _ =>
          match parseElems f rest with
          | some (xs, r) => some (.arr xs, r)
          | none => none
      else if c = '\x7b' then
        match rest with
        | '\x7d' :: r => some (.obj [], r)
        | _ =>
          match parseFields f rest with
          | some (fs, r) => some (.obj fs, r)
          | none => none
      else
        match parseIntChars (c :: rest) with
        | some (n, r) => some (.num n, r)
        | none => none := rfl

/-- Unfolding lemma for the element parser at successor fuel. -/
theorem parseElems_succ (f : Nat) (cs : List Char) :
    parseElems (f + 1) cs =
      match parseVal f cs with
      | none => none
      | some (v, r) =>
        match r with
        | ',' :: r' =>
          match parseElems f r' with
          | some (xs, r'') => some (v :: xs, r'')
          | none => none
        | ']' :: r' => some ([v], r')
        | _ => none := rfl

/-- Unfolding lemma for the member parser at successor fuel. -/
theorem parseFields_succ (f : Nat) (cs : List Char) :
    parseFields (f + 1) cs =
      match cs with
      | '"' :: cs1 =>
        match parseStrBody cs1 with
        | none => none
        | some (k, cs2) =>
          match cs2 with
          | ':' :: cs3 =>
            match parseVal f cs3 with
            | none => none
            | some (v, r) =>
              match r with
              | ',' :: r' =>
                match parseFields f r' with
                | some (fs, r'') => some ((String.mk k, v) :: fs, r'')
                | none => none
              | '\x7d' :: r' => some ([(String.mk k, v)], r')
              | _ => none
          | _ => none
      | _ => none := rfl

/-- The digits of a natural number form a nonempty list. -/
theorem natChars_ne_nil (n : Nat) : natChars n ≠ [] :=
  natCharsAux_ne_nil _ _

/-- Every emitted value is at least one character long. -/
theorem emitVal_ne_nil (v : Json) : emitVal v ≠ [] := by
  cases v with
  | null => simp [emitVal]
  | bool b => cases b <;> simp [emitVal]
  | num n =>
    show emitInt n ≠ []
    unfold emitInt
    by_cases h : n < 0
    · rw [if_pos h]; simp
    · rw [if_neg h]; exact natChars_ne_nil _
  | str s => simp [emitVal]
  | arr xs => simp [emitVal]
  | obj fs => simp [emitVal]

/-- The first character of an emitted value is never a closing bracket,
closing brace, comma or colon. -/
theorem emitVal_head_ne (v : Json) (c : Char) (cs : List Char)
    (h : emitVal v = c :: cs) : c ≠ ']' ∧ c ≠ '\x7d' := by
  cases v with
  | null => rw [show emitVal .null = ['n', 'u', 'l', 'l'] from rfl] at h
            cases h; exact ⟨by decide, by decide⟩
  | bool b =>
    cases b
    · rw [show emitVal (.bool false) = ['f', 'a', 'l', 's', 'e'] from rfl] at h
      cases h; exact ⟨by decide, by decide⟩
    · rw [show emitVal (.bool true) = ['t', 'r', 'u', 'e'] from rfl] at h
      cases h; exact ⟨by decide, by decide⟩
  | num n =>
    replace h : emitInt n = c :: cs := h
    unfold emitInt at h
    by_cases hneg : n < 0
    · rw [if_pos hneg] at h
      cases h; exact ⟨by decide, by decide⟩
    · rw [if_neg hneg] at h
      have hd : c.isDigit = true := by
        apply natCharsAux_isDigit (n.toNat + 1) n.toNat
        rw [show natCharsAux (n.toNat + 1) n.toNat = natChars n.toNat from rfl, h]
        simp
      exact ⟨isDigit_ne hd _ (by decide), isDigit_ne hd _ (by decide)⟩
  | str s =>
    rw [show emitVal (.str s) = '"' :: (escapeChars s.data ++ ['"']) from rfl] at h
    cases h; exact ⟨by decide, by decide⟩
  | arr xs =>
    rw [show emitVal (.arr xs) = '[' :: (emitElems xs ++ [']']) from rfl] at h
    cases h; exact ⟨by decide, by decide⟩
  | obj fs =>
    rw [show emitVal (.obj fs) = '\x7b' :: (emitFields fs ++ ['\x7d']) from rfl] at h
    cases h; exact ⟨by decide, by decide⟩

/-- A cons input whose head is not a digit stops the digit reader. -/
theorem noDigitHead_cons {c : Char} (h : c.isDigit = false) (cs : List Char) :
    noDigitHead (c :: cs) := h

/-- An emitted element list factors through the first emitted value. -/
theorem emitElems_cons_eq (x : Json) (xs : List Json) :
    ∃ t, emitElems (x :: xs) = emitVal x ++ t := by
  cases xs with
  | nil => exact ⟨[], by simp [emitElems]⟩
  | cons y ys => exact ⟨',' :: emitElems (y :: ys), by simp [emitElems]⟩

/-- An emitted member list starts with a quote. -/
theorem emitFields_cons_eq (k : String) (v : Json) (fs : List (String × Json)) :
    ∃ t, emitFields ((k, v) :: fs) = '"' :: t := by
  cases fs with
  | nil => exact ⟨escapeChars k.data ++ '"' :: ':' :: emitVal v, by simp [emitFields]⟩
  | cons q fs' =>
    exact ⟨(escapeChars k.data ++ '"' :: ':' :: emitVal v) ++ ',' :: emitFields (q :: fs'),
      by simp [emitFields]⟩

/-- The number branch of the value parser: an emitted integer followed by a
non-digit tail parses back. -/
theorem parseVal_emitInt (f : Nat) (n : Int) (rest : List Char) (hnd : noDigitHead rest) :
    parseVal (f + 1) (emitInt n ++ rest) = some (.num n, rest) := by
  have hp := parseIntChars_emitInt n rest hnd
  by_cases hneg : n < 0
  · have he : emitInt n ++ rest = '-' :: (natChars (-n).toNat ++ rest) := by
      unfold emitInt; rw [if_pos hneg]; rfl
    rw [he, parseVal_succ, if_neg (by decide), if_neg (by decide), if_neg (by decide),
      if_neg (by decide), if_neg (by decide), if_neg (by decide), ← he, hp]
  · obtain ⟨d, ds, hds, hdig⟩ := natChars_head n.toNat
    have he : emitInt n ++ rest = d :: (ds ++ rest) := by
      unfold emitInt; rw [if_neg hneg, hds]; rfl
    rw [he, parseVal_succ,
      if_neg (isDigit_ne hdig _ (by decide)), if_neg (isDigit_ne hdig _ (by decide)),
      if_neg (isDigit_ne hdig _ (by decide)), if_neg (isDigit_ne hdig _ (by decide)),
      if_neg (isDigit_ne hdig _ (by decide)), if_neg (isDigit_ne hdig _ (by decide)),
      ← he, hp]

/-- Round trip of the parser against the serializer, by induction on the
fuel: parsing an emitted value (or nonempty element/member list, with its
closing delimiter) recovers it exactly and consumes nothing more. -/
theorem parse_emit : ∀ f : Nat,
    (∀ v rest, (emitVal v).length < f → noDigitHead rest →
      parseVal f (emitVal v ++ rest) = some (v, rest)) ∧
    (∀ x xs rest, (emitElems (x :: xs)).length + 1 < f →
      parseElems f (emitElems (x :: xs) ++ ']' :: rest) = some (x :: xs, rest)) ∧
    (∀ k v fs rest, (emitFields ((k, v) :: fs)).length + 1 < f →
      parseFields f (emitFields ((k, v) :: fs) ++ '\x7d' :: rest)
        = some ((k, v) :: fs, rest)) := by
  intro f
  induction f with
  | zero =>
    refine ⟨fun v rest h _ => absurd h (by omega),
      fun x xs rest h => absurd h (by omega),
      fun k v fs rest h => absurd h (by omega)⟩
  | succ f ih =>
    obtain ⟨ihv, ihe, ihf⟩ := ih
    refine ⟨?_, ?_, ?_⟩
    · -- values
      intro v rest hlen hnd
      cases v with
      | null => rfl
      | bool b => cases b <;> rfl
      | num n => exact parseVal_emitInt f n rest hnd
      | str s =>
        have he : emitVal (.str s) ++ rest = '"' :: (escapeChars s.data ++ '"' :: rest) := by
          simp [emitVal]
        rw [he, parseVal_succ, if_neg (by decide), if_neg (by decide), if_neg (by decide),
          if_pos rfl, parseStrBody_escape]
      | arr xs =>
        cases xs with
        | nil => rfl
        | cons x xs' =>
          have he : emitVal (.arr (x :: xs')) ++ rest
              = '[' :: (emitElems (x :: xs') ++ ']' :: rest) := by
            simp [emitVal]
          rw [he, parseVal_succ, if_neg (by decide), if_neg (by decide), if_neg (by decide),
            if_neg (by decide), if_pos rfl]
          obtain ⟨t, ht⟩ := emitElems_cons_eq x xs'
          obtain ⟨c, cs', hc⟩ : ∃ c cs', emitVal x = c :: cs' := by
            rcases hh : emitVal x with _ | ⟨c, cs'⟩
            · exact absurd hh (emitVal_ne_nil x)
            · exact ⟨c, cs', rfl⟩
          have hcne := (emitVal_head_ne x c cs' hc).1
          have hscr : emitElems (x :: xs') ++ ']' :: rest = c :: (cs' ++ t ++ ']' :: rest) := by
            rw [ht, hc]; simp
          rw [hscr]
          have hb : (emitElems (x :: xs')).length + 1 < f := by
            have : (emitVal (.arr (x :: xs'))).length = (emitElems (x :: xs')).length + 2 := by
              simp [emitVal]
            omega
          split
          · next r heq =>
            exact absurd (List.head_eq_of_cons_eq heq) hcne
          · next h1 =>
            rw [← hscr, ihe x xs' rest hb]
      | obj fs =>
        cases fs with
        | nil => rfl
        | cons p fs' =>
          obtain ⟨k, v⟩ := p
          have he : emitVal (.obj ((k, v) :: fs')) ++ rest
              = '\x7b' :: (emitFields ((k, v) :: fs') ++ '\x7d' :: rest) := by
            simp [emitVal]
          rw [he, parseVal_succ, if_neg (by decide), if_neg (by decide), if_neg (by decide),
            if_neg (by decide), if_neg (by decide), if_pos rfl]
          obtain ⟨t, ht⟩ := emitFields_cons_eq k v fs'
          have hscr : emitFields ((k, v) :: fs') ++ '\x7d' :: rest
              = '"' :: (t ++ '\x7d' :: rest) := by rw [ht]; rfl
          rw [hscr]
          have hb : (emitFields ((k, v) :: fs')).length + 1 < f := by
            have : (emitVal (.obj ((k, v) :: fs'))).length
                = (emitFields ((k, v) :: fs')).length + 2 := by
              simp [emitVal]
            omega
          split
          · next r heq =>
            exact absurd (List.head_eq_of_cons_eq heq) (by decide)
          · next h1 =>
            rw [← hscr, ihf k v fs' rest hb]
    · -- element lists
      intro x xs rest hlen
      cases xs with
      | nil =>
        have hx : (emitVal x).length < f := by
          have : emitElems [x] = emitVal x := by simp [emitElems]
          rw [this] at hlen; omega
        have he : emitElems [x] ++ ']' :: rest = emitVal x ++ ']' :: rest := by
          simp [emitElems]
        simp only [he, parseElems_succ,
          ihv x (']' :: rest) hx (noDigitHead_cons (by decide) _)]
      | cons y ys =>
        have hlen' : (emitVal x).length + 1 + (emitElems (y :: ys)).length + 1 < f + 1 := by
          have : (emitElems (x :: y :: ys)).length
              = (emitVal x).length + 1 + (emitElems (y :: ys)).length := by
            simp [emitElems]; omega
          omega
        have hxpos : 0 < (emitVal x).length := List.length_pos.mpr (emitVal_ne_nil x)
        have he : emitElems (x :: y :: ys) ++ ']' :: rest
            = emitVal x ++ ',' :: (emitElems (y :: ys) ++ ']' :: rest) := by
          simp [emitElems]
        simp only [he, parseElems_succ,
          ihv x (',' :: (emitElems (y :: ys) ++ ']' :: rest)) (by omega)
            (noDigitHead_cons (by decide) _),
          ihe y ys rest (by omega)]
    · -- member lists
      intro k v fs rest hlen
      cases fs with
      | nil =>
        have hv : (emitVal v).length < f := by
          have : (emitFields [(k, v)]).length
              = (escapeChars k.data).length + 3 + (emitVal v).length := by
            simp [emitFields]; omega
          omega
        have he : emitFields [(k, v)] ++ '\x7d' :: rest
            = '"' :: (escapeChars k.data ++ '"' :: (':' :: (emitVal v ++ '\x7d' :: rest))) := by
          simp [emitFields]
        simp only [he, parseFields_succ, parseStrBody_escape,
          ihv v ('\x7d' :: rest) hv (noDigitHead_cons (by decide) _)]
      | cons q fs' =>
        obtain ⟨k2, v2⟩ := q
        have hlen' : (escapeChars k.data).length + 3 + (emitVal v).length + 1
            + (emitFields ((k2, v2) :: fs')).length + 1 < f + 1 := by
          have : (emitFields ((k, v) :: (k2, v2) :: fs')).length
              = (escapeChars k.data).length + 3 + (emitVal v).length + 1
                + (emitFields ((k2, v2) :: fs')).length := by
            simp [emitFields]; omega
          omega
        have hvpos : 0 < (emitVal v).length := List.length_pos.mpr (emitVal_ne_nil v)
        have he : emitFields ((k, v) :: (k2, v2) :: fs') ++ '\x7d' :: rest
            = '"' :: (escapeChars k.data ++ '"' :: (':' :: (emitVal v
                ++ ',' :: (emitFields ((k2, v2) :: fs') ++ '\x7d' :: rest)))) := by
          simp [emitFields]
        simp only [he, parseFields_succ, parseStrBody_escape,
          ihv v (',' :: (emitFields ((k2, v2) :: fs') ++ '\x7d' :: rest)) (by omega)
            (noDigitHead_cons (by decide) _),
          ihf k2 v2 fs' rest (by omega)]

/-- Round trip of the whole codec: parsing a stringified value gives it
back. This is the platform guarantee `JSON.parse(JSON.stringify(v)) = v`
that the report codec of the handlers relies on. -/
theorem parse_stringify (v : Json) : parse (stringify v) = some v := by
  have h := (parse_emit ((emitVal v).length + 1)).1 v [] (by omega) trivial
  rw [List.append_nil] at h
  show (match parseVal ((stringify v).data.length + 1) (stringify v).data with
    | some (v, []) => some v
    | _ => none) = some v
  rw [show (stringify v).data = emitVal v from rfl, h]

/-- The serializer is injective: a consequence of the round trip. -/
theorem stringify_injective {a b : Json} (h : stringify a = stringify b) : a = b := by
  have ha := parse_stringify a
  rw [h, parse_stringify b] at ha
  exact (Option.some.inj ha).symm

/-- Equality of JSON values is decidable by comparing their texts, which
the round trip shows faithful. -/
instance : DecidableEq Json := fun a b =>
  decidable_of_iff (stringify a = stringify b)
    ⟨fun h => stringify_injective h, fun h => by rw [h]⟩

/-- A stringified value is never the empty text. -/
theorem stringify_ne_empty (v : Json) : stringify v ≠ "" := by
  intro h
  have : (stringify v).data = [] := by rw [h]
  exact emitVal_ne_nil v this

end Json

/-! JavaScript-runtime helpers the handlers use: truthiness, object field
access, string methods and `parseInt`. These embed the platform behavior
the source leans on, executably over character lists. -/

/-- JS truthiness of a JSON value: `null`, `false`, `0` and the empty
string are falsy; every object and array is truthy. -/
def jsTruthy : Json → Bool
  | .null => false
  | .bool b => b
  | .num n => decide (n ≠ 0)
  | .str s => decide (s ≠ "")
  | .arr _ => true
  | .obj _ => true

/-- Property access `body.k` on a JSON value: the first binding of the key
in an object, and `undefined` (here `none`) on everything else. -/
def jsGet (v : Json) (key : String) : Option Json :=
  match v with
  | .obj fs => lookupField fs key
  | _ => none
where
  /-- First binding of a key in an object field list. -/
  lookupField : List (String × Json) → String → Option Json
    | [], _ => none
    | (k, w) :: fs, key => if k = key then some w else lookupField fs key

/-- The JS idiom `x || d` applied to a possibly absent field: the field
when present and truthy, the default otherwise. -/
def jsOr (x : Option Json) (d : Json) : Json :=
  match x with
  | some v => if jsTruthy v then v else d
  | none => d

/-- Truthiness of a possibly absent value (`undefined` is falsy). -/
def truthyOpt (x : Option Json) : Bool :=
  match x with
  | some v => jsTruthy v
  | none => false

/-- JS `String.prototype.startsWith`, over the character lists. -/
def jsStartsWith (s pre : String) : Bool :=
  pre.data.isPrefixOf s.data

/-- JS `String.prototype.substring(n)`, over the character lists. -/
def jsSubstringFrom (s : String) (n : Nat) : String :=
  String.mk (s.data.drop n)

/-- Split a character list at a separator character. -/
def splitCharsAux (sep : Char) : List Char → List Char → List (List Char)
  | [], acc => [acc.reverse]
  | c :: cs, acc =>
    if c = sep then acc.reverse :: splitCharsAux sep cs []
    else splitCharsAux sep cs (c :: acc)

/-- JS `String.prototype.split` with a one-character separator. -/
def jsSplit (s : String) (sep : Char) : List String :=
  (splitCharsAux sep s.data []).map String.mk

/-- JS `parseInt` in base 10: skip leading whitespace, read an optional
sign and then a maximal digit prefix; `none` is `NaN`. Hexadecimal
prefixes are outside the model (no caller produces them). -/
def jsParseInt (s : String) : Option Int :=
  let cs := s.data.dropWhile (·.isWhitespace)
  match cs with
  | '-' :: t =>
    let ds := t.takeWhile (·.isDigit)
    if ds = [] then none else some (-(((Json.readDigits 0 ds).1 : Nat) : Int))
  | '+' :: t =>
    let ds := t.takeWhile (·.isDigit)
    if ds = [] then none else some (((Json.readDigits 0 ds).1 : Nat) : Int)
  | t =>
    let ds := t.takeWhile (·.isDigit)
    if ds = [] then none else some (((Json.readDigits 0 ds).1 : Nat) : Int)

/-! Data model: the three tables of `schema.sql`, as the handlers see
them. Column values bound from request bodies are kept as JSON values;
ids are numeric (store assigned) except the caller-supplied report id. -/

/-- A row of `users`: id, the four body-supplied columns, and the nullable
unique session token. -/
structure UserRow where
  id : Nat
  name : Json
  email : Json
  university : Json
  password : Json
  token : Option String
  deriving DecidableEq

/-- A row of `lists`: store-assigned id, name, owning user. -/
structure ListRow where
  id : Nat
  name : Json
  user_id : Nat
  deriving DecidableEq

/-- A row of `reports`: caller-supplied text id, owning user, nullable
list reference, and the six encoded sub-document columns. -/
structure ReportRow where
  id : String
  user_id : Nat
  list_id : Option Int
  info_general : String
  configuracion : String
  niveles_desempeno : String
  criterios : String
  feedback : String
  resultados : String
  deriving DecidableEq

/-- The D1 database state, plus the autoincrement counters that produce
`last_row_id` for users and lists. -/
structure DB where
  users : List UserRow
  lists : List ListRow
  reports : List ReportRow
  nextUserId : Nat
  nextListId : Nat
  deriving DecidableEq

/-- HTTP method of a request. -/
inductive Method where
  | GET
  | POST
  | PUT
  | DELETE
  | OPTIONS
  | PATCH
  deriving DecidableEq

/-- An inbound request, after the runtime stripped the `/api` root from
the pathname: method, path, raw Authorization header, parsed JSON body. -/
structure Request where
  method : Method
  path : String
  authHeader : Option String
  body : Json

/-- A response: HTTP status and JSON body. Every response of the source
also carries the constant CORS headers, which the model omits. -/
structure Response where
  status : Nat
  body : Json
  deriving DecidableEq

/-- Embeds `jsonResponse(data, status)` of the source. -/
def jsonResponse (data : Json) (status : Nat := 200) : Response :=
  { status := status, body := data }

/-- Embeds `errorResponse(message, status)` of the source: a `{message}` body. -/
def errorResponse (message : String) (status : Nat := 400) : Response :=
  { status := status, body := .obj [("message", .str message)] }

/-- Embeds `extractToken`: the text after `Bearer ` when the Authorization header
carries that scheme, else null. -/
def extractToken (authHeader : Option String) : Option String :=
  match authHeader with
  | none => none
  | some h => if jsStartsWith h "Bearer " then some (jsSubstringFrom h 7) else none

/-! Handlers of `src/functions/api/[[route]].js` (identical in
`src/unnamed/part_001`; `part_000` differs only in defaulting details the
claims do not touch). Each mutating handler returns the response and the
successor store; a read-only handler returns just the response. Handlers
that the source hands a `crypto.randomUUID()` value take it as the
`genTok`/`genId` argument. -/

/-- Embeds `findUserByToken`: single-row lookup on the unique token column,
projected to the public identity. -/
structure PublicUser where
  id : Nat
  name : Json
  email : Json
  university : Json
  deriving DecidableEq

/-- The `{id, name, email, university}` object the auth handlers return. -/
def publicUserJson (u : PublicUser) : Json :=
  .obj [("id", .num u.id), ("name", u.name), ("email", u.email),
        ("university", u.university)]

/-- Runs `SELECT * FROM users WHERE token = ?` then the projection, or null. -/
def findUserByToken (tok : String) (db : DB) : Option PublicUser :=
  match db.users.find? (fun u => decide (u.token = some tok)) with
  | some u => some { id := u.id, name := u.name, email := u.email, university := u.university }
  | none => none

/-- Embeds `registerUser`: validate presence, reject a duplicate email with 409,
insert with a fresh token and answer 201. The 500 branch embeds the
`UNIQUE` constraint on the token column. -/
def registerUser (db : DB) (genTok : String) (body : Json) : Response × DB :=
  let name := jsGet body "name"
  let email := jsGet body "email"
  let university := jsGet body "university"
  let password := jsGet body "password"
  if !(truthyOpt name && truthyOpt email && truthyOpt university && truthyOpt password) then
    (errorResponse "Name, email, university, and password are required." 400, db)
  else if (db.users.find? (fun u => decide (u.email = email.getD .null))).isSome then
    (errorResponse "Email already registered." 409, db)
  else if db.users.any (fun u => decide (u.token = some genTok)) then
    (errorResponse "UNIQUE constraint failed: users.token" 500, db)
  else
    let newUser : UserRow :=
      { id := db.nextUserId, name := name.getD .null, email := email.getD .null,
        university := university.getD .null, password := password.getD .null,
        token := some genTok }
    (jsonResponse (.obj [("user", publicUserJson
        { id := db.nextUserId, name := name.getD .null, email := email.getD .null,
          university := university.getD .null }), ("token", .str genTok)]) 201,
     { db with users := db.users ++ [newUser], nextUserId := db.nextUserId + 1 })

/-- Embeds `loginUser`: validate presence, look the row up by exact email and
password, overwrite its token with the fresh one and answer 200. The 500
branch embeds the `UNIQUE` constraint on the token column. -/
def loginUser (db : DB) (genTok : String) (body : Json) : Response × DB :=
  let email := jsGet body "email"
  let password := jsGet body "password"
  if !(truthyOpt email && truthyOpt password) then
    (errorResponse "Email and password are required." 400, db)
  else
    match db.users.find? (fun u =>
        decide (u.email = email.getD .null ∧ u.password = password.getD .null)) with
    | none => (errorResponse "Invalid email or password." 401, db)
    | some u =>
      if db.users.any (fun v => decide (v.id ≠ u.id ∧ v.token = some genTok)) then
        (errorResponse "UNIQUE constraint failed: users.token" 500, db)
      else
        (jsonResponse (.obj [("user", publicUserJson
            { id := u.id, name := u.name, email := u.email, university := u.university }),
          ("token", .str genTok)]) 200,
         { db with users := db.users.map (fun v =>
             if v.id = u.id then { v with token := some genTok } else v) })

/-- Decode one stored sub-document column, substituting the given default
text for an absent or empty column, as in
`JSON.parse(r.info_general || '{}')`. -/
def decodeCol (s : String) (dflt : String) : Option Json :=
  Json.parse (if s = "" then dflt else s)

/-- The response object of a decoded report row: the spread of the row
followed by the six decoded sub-documents. The columns named exactly like
a decoded field (`configuracion`, `criterios`, `feedback`, `resultados`)
are overwritten by the spread; `info_general` and `niveles_desempeno`
survive next to their camel-case decoded forms. `none` embeds a
`JSON.parse` throw, which the handler turns into a 500. -/
def parsedReportJson (r : ReportRow) : Option Json :=
  match decodeCol r.info_general "\x7b\x7d", decodeCol r.configuracion "\x7b\x7d",
      decodeCol r.niveles_desempeno "[]", decodeCol r.criterios "[]",
      decodeCol r.feedback "\x7b\x7d", decodeCol r.resultados "\x7b\x7d" with
  | some ig, some cf, some nd, some cr, some fb, some rs =>
    some (.obj [("id", .str r.id), ("user_id", .num r.user_id),
      ("list_id", match r.list_id with | some n => .num n | none => .null),
      ("info_general", .str r.info_general),
      ("configuracion", cf),
      ("niveles_desempeno", .str r.niveles_desempeno),
      ("criterios", cr),
      ("feedback", fb),
      ("resultados", rs),
      ("infoGeneral", ig),
      ("nivelesDesempeno", nd)])
  | _, _, _, _, _, _ => none

/-- Embeds `getReports`: every report of the caller, each decoded. -/
def getReports (db : DB) (userId : Nat) : Response :=
  let rows := db.reports.filter (fun r => decide (r.user_id = userId))
  match rows.mapM parsedReportJson with
  | some js => jsonResponse (.arr js) 200
  | none => errorResponse "JSON parse error" 500

/-- Embeds `getReport`: the report with the given id owned by the caller, decoded,
or 404. -/
def getReport (db : DB) (userId : Nat) (id : String) : Response :=
  match db.reports.find? (fun r => decide (r.id = id ∧ r.user_id = userId)) with
  | none => errorResponse "Report not found" 404
  | some r =>
    match parsedReportJson r with
    | some j => jsonResponse j 200
    | none => errorResponse "JSON parse error" 500

/-- The id the insert binds: `id || crypto.randomUUID()`. The spec types
report ids as strings, so a non-string id field is outside the model and
treated like an absent one. -/
def storedReportId (body : Json) (genId : String) : String :=
  match jsGet body "id" with
  | some (.str s) => if s = "" then genId else s
  | _ => genId

/-- The list reference the insert binds: `listaId || null` (so an explicit
zero also becomes null). A non-numeric value is outside the model. -/
def storedListId (body : Json) : Option Int :=
  match jsGet body "listaId" with
  | some (.num n) => if n = 0 then none else some n
  | _ => none

/-- The stored text of one sub-document field: `JSON.stringify(x || d)`. -/
def encodeField (body : Json) (key : String) (d : Json) : String :=
  Json.stringify (jsOr (jsGet body key) d)

/-- The row `createReport` binds into the insert: id defaulted to the
generated UUID, every sub-document defaulted and stringified. -/
def createdRow (userId : Nat) (genId : String) (body : Json) : ReportRow :=
  { id := storedReportId body genId, user_id := userId, list_id := storedListId body,
    info_general := encodeField body "infoGeneral" (.obj []),
    configuracion := encodeField body "configuracion" (.obj []),
    niveles_desempeno := encodeField body "nivelesDesempeno" (.arr []),
    criterios := encodeField body "criterios" (.arr []),
    feedback := encodeField body "feedback" (.obj []),
    resultados := encodeField body "resultados" (.obj []) }

/-- Embeds `createReport`: insert the row with every sub-document defaulted and
stringified, and answer `{id: id}` — the raw body field, not the bound
value — with 201. The 500 branch embeds the primary-key constraint on the
report id. -/
def createReport (db : DB) (userId : Nat) (genId : String) (body : Json) : Response × DB :=
  if db.reports.any (fun r => decide (r.id = storedReportId body genId)) then
    (errorResponse "UNIQUE constraint failed: reports.id" 500, db)
  else
    let respBody : Json :=
      match jsGet body "id" with
      | some v => .obj [("id", v)]
      | none => .obj []
    (jsonResponse respBody 201,
     { db with reports := db.reports ++ [createdRow userId genId body] })

/-- Embeds `updateReport`: full replacement of the six sub-documents and the list
reference on the row matching id and owner; 404 when no row is hit. -/
def updateReport (db : DB) (userId : Nat) (id : String) (body : Json) : Response × DB :=
  let affected := (db.reports.filter (fun r => decide (r.id = id ∧ r.user_id = userId))).length
  let reports' := db.reports.map (fun r =>
    if r.id = id ∧ r.user_id = userId then
      { r with
        info_general := encodeField body "infoGeneral" (.obj []),
        configuracion := encodeField body "configuracion" (.obj []),
        niveles_desempeno := encodeField body "nivelesDesempeno" (.arr []),
        criterios := encodeField body "criterios" (.arr []),
        feedback := encodeField body "feedback" (.obj []),
        resultados := encodeField body "resultados" (.obj []),
        list_id := storedListId body }
    else r)
  if affected = 0 then (errorResponse "Report not found or not authorized." 404, db)
  else (jsonResponse (.obj [("message", .str "Report updated")]) 200,
    { db with reports := reports' })

/-- Embeds `deleteReport`: delete the row matching id and owner; 404 when no row
is hit. -/
def deleteReport (db : DB) (userId : Nat) (id : String) : Response × DB :=
  let affected := (db.reports.filter (fun r => decide (r.id = id ∧ r.user_id = userId))).length
  let reports' := db.reports.filter (fun r => !decide (r.id = id ∧ r.user_id = userId))
  if affected = 0 then (errorResponse "Report not found or not authorized." 404, db)
  else (jsonResponse (.obj [("message", .str "Report deleted")]) 200,
    { db with reports := reports' })

/-- SQL equality under binding: a comparison with a NULL operand never
holds. -/
def sqlEq (a b : Option Json) : Bool :=
  match a, b with
  | some x, some y => decide (x = y)
  | _, _ => false

/-- Embeds `searchReports`: exact match on two fields `json_extract`ed from the
general-info column of the reports of the caller. A malformed stored column
surfaces as a store error, hence 500. -/
def searchReports (db : DB) (userId : Nat) (body : Json) : Response :=
  let title := jsGet body "title"
  let student := jsGet body "student"
  let mine := db.reports.filter (fun r => decide (r.user_id = userId))
  match mine.mapM (fun r => (Json.parse r.info_general).map (fun ig => (r, ig))) with
  | none => errorResponse "malformed JSON in info_general" 500
  | some pairs =>
    let matched := (pairs.filter (fun p =>
      sqlEq (jsGet p.2 "tituloEvaluacion") title
        && sqlEq (jsGet p.2 "nombreEstudiante") student)).map Prod.fst
    match matched.mapM parsedReportJson with
    | some js => jsonResponse (.arr js) 200
    | none => errorResponse "JSON parse error" 500

/-- The row object `getLists` returns. -/
def listRowJson (l : ListRow) : Json :=
  .obj [("id", .num l.id), ("name", l.name), ("user_id", .num l.user_id)]

/-- Embeds `getLists`: every list of the caller, raw rows. -/
def getLists (db : DB) (userId : Nat) : Response :=
  jsonResponse (.arr ((db.lists.filter (fun l => decide (l.user_id = userId))).map
    listRowJson)) 200

/-- Embeds `createList`: validate the name, insert, answer `{id, name}` 201. -/
def createList (db : DB) (userId : Nat) (body : Json) : Response × DB :=
  let name := jsGet body "name"
  if !truthyOpt name then (errorResponse "List name is required." 400, db)
  else
    let newList : ListRow := { id := db.nextListId, name := name.getD .null, user_id := userId }
    (jsonResponse (.obj [("id", .num db.nextListId), ("name", name.getD .null)]) 201,
     { db with lists := db.lists ++ [newList], nextListId := db.nextListId + 1 })

/-- Embeds `handleAuth` of `[[route]].js`: dispatch under `/auth/`. -/
def handleAuth (db : DB) (genTok : String) (req : Request) : Response × DB :=
  if req.path = "/auth/register" then
    if req.method ≠ .POST then (errorResponse "Method Not Allowed" 405, db)
    else registerUser db genTok req.body
  else if req.path = "/auth/login" then
    if req.method ≠ .POST then (errorResponse "Method Not Allowed" 405, db)
    else loginUser db genTok req.body
  else if req.path = "/auth/me" then
    if req.method ≠ .GET then (errorResponse "Method Not Allowed" 405, db)
    else
      match extractToken req.authHeader with
      | none => (errorResponse "Authentication required" 401, db)
      | some t =>
        if t = "" then (errorResponse "Authentication required" 401, db)
        else
          match findUserByToken t db with
          | none => (errorResponse "Invalid token" 401, db)
          | some u => (jsonResponse (publicUserJson u) 200, db)
  else (errorResponse "Not Found" 404, db)

/-- Embeds `onRequest` of `src/functions/api/[[route]].js`, the deployed router:
OPTIONS short-circuit, `/auth/` bypass, token check (a JS-falsy empty
token also fails), then the prefix dispatch in source order. Note the
source places the `path === "/reports/search"` comparison after the
`path.startsWith("/reports/")` branch, which already swallows every such
path. -/
def onRequest (db : DB) (genTok genId : String) (req : Request) : Response × DB :=
  if req.method = .OPTIONS then ({ status := 200, body := .null }, db)
  else if jsStartsWith req.path "/auth/" then handleAuth db genTok req
  else
    match extractToken req.authHeader with
    | none => (errorResponse "Authentication required" 401, db)
    | some tok =>
      if tok = "" then (errorResponse "Authentication required" 401, db)
      else
        match findUserByToken tok db with
        | none => (errorResponse "Invalid token" 401, db)
        | some user =>
          let userId := user.id
          if req.path = "/reports" then
            if req.method = .GET then (getReports db userId, db)
            else if req.method = .POST then createReport db userId genId req.body
            else (errorResponse "Method Not Allowed" 405, db)
          else if jsStartsWith req.path "/reports/" then
            let parts := (jsSplit req.path '/').filter (fun p => decide (p ≠ ""))
            if 2 ≤ parts.length then
              let reportId := parts.getD 1 ""
              if parts.length = 2 then
                if req.method = .GET then (getReport db userId reportId, db)
                else if req.method = .PUT then updateReport db userId reportId req.body
                else if req.method = .DELETE then deleteReport db userId reportId
                else (errorResponse "Not Found" 404, db)
              else if parts.length = 3 ∧ parts.getD 2 "" = "search" then
                if req.method = .POST then (searchReports db userId req.body, db)
                else (errorResponse "Not Found" 404, db)
              else (errorResponse "Not Found" 404, db)
            else (errorResponse "Not Found" 404, db)
          else if req.path = "/reports/search" then
            if req.method = .POST then (searchReports db userId req.body, db)
            else (errorResponse "Method Not Allowed" 405, db)
          else if req.path = "/lists" then
            if req.method = .GET then (getLists db userId, db)
            else if req.method = .POST then createList db userId req.body
            else (errorResponse "Method Not Allowed" 405, db)
          else (errorResponse "Not Found" 404, db)

namespace PartOne

/-- Embeds `deleteList` of `src/unnamed/part_001`: convert both ids with
`parseInt` (the session user id is a number, so only the path id can come
out NaN), 400 on a failed conversion, then existence check without an
owner filter, 403 on an owner mismatch, and only then the owner-filtered
delete. The 500 branch is the `rows_affected === 0` recheck after the
delete. -/
def deleteList (db : DB) (userId : Nat) (id : String) : Response × DB :=
  match jsParseInt id with
  | none => (errorResponse "Invalid ID format" 400, db)
  | some n =>
    match db.lists.find? (fun l => decide ((l.id : Int) = n)) with
    | none => (errorResponse "List not found" 404, db)
    | some l =>
      if l.user_id ≠ userId then (errorResponse "Not authorized" 403, db)
      else
        let affected := (db.lists.filter (fun l' =>
          decide ((l'.id : Int) = n ∧ l'.user_id = userId))).length
        let lists' := db.lists.filter (fun l' =>
          !decide ((l'.id : Int) = n ∧ l'.user_id = userId))
        if affected = 0 then (errorResponse "Failed to delete list" 500, db)
        else
          (jsonResponse (.obj [("message", .str "List deleted successfully"),
            ("deletedId", .num n), ("rowsAffected", .num affected)]) 200,
           { db with lists := lists' })

/-- Embeds `getList` of `part_001`: owner-filtered single-row lookup. A NaN id
cannot be bound by the store, so it surfaces as a store error. -/
def getList (db : DB) (userId : Nat) (id : String) : Response :=
  match jsParseInt id with
  | none => errorResponse "D1_TYPE_ERROR: cannot bind NaN" 500
  | some n =>
    match db.lists.find? (fun l => decide ((l.id : Int) = n ∧ l.user_id = userId)) with
    | none => errorResponse "List not found" 404
    | some l => jsonResponse (listRowJson l) 200

/-- Embeds `updateList` of `part_001`: rename the owner-filtered row; 404 when no
row is hit. A NaN id surfaces as a store error. -/
def updateList (db : DB) (userId : Nat) (id : String) (body : Json) : Response × DB :=
  let name := jsGet body "name"
  if !truthyOpt name then (errorResponse "List name is required" 400, db)
  else
    match jsParseInt id with
    | none => (errorResponse "D1_TYPE_ERROR: cannot bind NaN" 500, db)
    | some n =>
      let affected := (db.lists.filter (fun l =>
        decide ((l.id : Int) = n ∧ l.user_id = userId))).length
      let lists' := db.lists.map (fun l =>
        if (l.id : Int) = n ∧ l.user_id = userId then { l with name := name.getD .null }
        else l)
      if affected = 0 then (errorResponse "List not found or not authorized" 404, db)
      else
        (jsonResponse (.obj [("message", .str "List updated"), ("id", .num n),
          ("name", name.getD .null)]) 200,
         { db with lists := lists' })

/-- Embeds `onRequest` of `src/unnamed/part_001` — the variant whose routing the
source marks as corrected: the exact `/reports/search` comparison comes
before the `/reports/` prefix branch, and `/lists/{id}` is routed. -/
def onRequest (db : DB) (genTok genId : String) (req : Request) : Response × DB :=
  if req.method = .OPTIONS then ({ status := 200, body := .null }, db)
  else if jsStartsWith req.path "/auth/" then handleAuth db genTok req
  else
    match extractToken req.authHeader with
    | none => (errorResponse "Authentication required" 401, db)
    | some tok =>
      if tok = "" then (errorResponse "Authentication required" 401, db)
      else
        match findUserByToken tok db with
        | none => (errorResponse "Invalid token" 401, db)
        | some user =>
          let userId := user.id
          if req.path = "/reports" then
            if req.method = .GET then (getReports db userId, db)
            else if req.method = .POST then createReport db userId genId req.body
            else (errorResponse "Method Not Allowed" 405, db)
          else if req.path = "/reports/search" then
            if req.method = .POST then (searchReports db userId req.body, db)
            else (errorResponse "Method Not Allowed" 405, db)
          else if jsStartsWith req.path "/reports/" then
            let parts := (jsSplit req.path '/').filter (fun p => decide (p ≠ ""))
            if 2 ≤ parts.length then
              let reportId := parts.getD 1 ""
              if req.method = .GET then (getReport db userId reportId, db)
              else if req.method = .PUT then updateReport db userId reportId req.body
              else if req.method = .DELETE then deleteReport db userId reportId
              else (errorResponse "Not Found" 404, db)
            else (errorResponse "Not Found" 404, db)
          else if req.path = "/lists" then
            if req.method = .GET then (getLists db userId, db)
            else if req.method = .POST then createList db userId req.body
            else (errorResponse "Method Not Allowed" 405, db)
          else if jsStartsWith req.path "/lists/" then
            let parts := (jsSplit req.path '/').filter (fun p => decide (p ≠ ""))
            if 2 ≤ parts.length then
              let listId := parts.getD 1 ""
              if req.method = .DELETE then deleteList db userId listId
              else if req.method = .GET then (getList db userId listId, db)
              else if req.method = .PUT then updateList db userId listId req.body
              else (errorResponse "Method Not Allowed" 405, db)
            else (errorResponse "Invalid list path" 404, db)
          else (errorResponse "Not Found" 404, db)

end PartOne


/-! Shared concrete fixtures for witnesses and counterexamples. -/

/-- A registered user holding the live token `"tok"`. -/
def demoUser : UserRow :=
  { id := 1, name := .str "A", email := .str "a@x.com", university := .str "U",
    password := .str "p", token := some "tok" }

/-- A store with just that user. -/
def demoDb : DB :=
  { users := [demoUser], lists := [], reports := [], nextUserId := 2, nextListId := 1 }

/-- A report row owned by user 2, used to probe cross-tenant access. -/
def otherReport : ReportRow :=
  { id := "r1", user_id := 2, list_id := none,
    info_general := "\x7b\x7d", configuracion := "\x7b\x7d", niveles_desempeno := "[]",
    criterios := "[]", feedback := "\x7b\x7d", resultados := "\x7b\x7d" }

/-- The store holding user 1 and user 2 with user 2 owning report `"r1"`. -/
def crossDb : DB :=
  { users := [demoUser,
      { id := 2, name := .str "B", email := .str "b@x.com", university := .str "U",
        password := .str "q", token := some "tok2" }],
    lists := [], reports := [otherReport], nextUserId := 3, nextListId := 1 }

/-- An empty store. -/
def emptyDb : DB := { users := [], lists := [], reports := [], nextUserId := 1, nextListId := 1 }

/-- A list with id 5 owned by user 1, in a store beside `demoUser`. -/
def demoList : ListRow := { id := 5, name := .str "L", user_id := 1 }

/-- The store holding `demoList`. -/
def demoListDb : DB :=
  { users := [demoUser], lists := [demoList], reports := [], nextUserId := 2, nextListId := 6 }

/-- Claim C1: for every authenticated request, the get/update/delete report
handlers only ever return or mutate a report row whose owning user id
equals the resolved caller id: on a report id every copy of which belongs
to a different user, all three answer 404, and neither update nor delete
changes the store. -/
theorem c1_report_handlers_owner_scoped (db : DB) (userId : Nat) (rid : String) (body : Json)
    (h : ∀ r ∈ db.reports, r.id = rid → r.user_id ≠ userId) :
    (getReport db userId rid).status = 404
    ∧ (updateReport db userId rid body).1.status = 404
    ∧ (updateReport db userId rid body).2 = db
    ∧ (deleteReport db userId rid).1.status = 404
    ∧ (deleteReport db userId rid).2 = db := by
  have hpred : ∀ r ∈ db.reports, ¬(decide (r.id = rid ∧ r.user_id = userId) = true) := by
    intro r hr
    simp only [decide_eq_true_eq]
    rintro ⟨h1, h2⟩
    exact h r hr h1 h2
  have hfind : db.reports.find? (fun r => decide (r.id = rid ∧ r.user_id = userId)) = none :=
    List.find?_eq_none.mpr hpred
  have hfilter : db.reports.filter (fun r => decide (r.id = rid ∧ r.user_id = userId)) = [] :=
    List.filter_eq_nil_iff.mpr hpred
  refine ⟨?_, ?_, ?_, ?_, ?_⟩
  · simp only [getReport, hfind]; rfl
  · simp only [updateReport, hfilter]; rfl
  · simp only [updateReport, hfilter]; rfl
  · simp only [deleteReport, hfilter]; rfl
  · simp only [deleteReport, hfilter]; rfl

/-- Witness for C1 at a concrete store: user 1 probing the report that
belongs to user 2. -/
theorem c1_witness :
    (getReport crossDb 1 "r1").status = 404
    ∧ (updateReport crossDb 1 "r1" (.obj [])).1.status = 404
    ∧ (updateReport crossDb 1 "r1" (.obj [])).2 = crossDb
    ∧ (deleteReport crossDb 1 "r1").1.status = 404
    ∧ (deleteReport crossDb 1 "r1").2 = crossDb :=
  c1_report_handlers_owner_scoped crossDb 1 "r1" (.obj []) (by decide)

/-- Claim C4: any request outside `/auth/` that is not a CORS preflight and
carries no bearer token is answered 401 by the deployed router, before any
route or store logic runs. -/
theorem c4_missing_bearer_always_401 (db : DB) (genTok genId : String) (req : Request)
    (hm : req.method ≠ .OPTIONS) (ha : jsStartsWith req.path "/auth/" = false)
    (ht : extractToken req.authHeader = none) :
    (onRequest db genTok genId req).1.status = 401 := by
  unfold onRequest
  rw [if_neg hm, if_neg (by simp [ha]), ht]
  rfl

/-- Witness for C4: a GET on `/reports` with a Basic header. -/
theorem c4_witness :
    (onRequest demoDb "g" "r"
      { method := .GET, path := "/reports", authHeader := some "Basic xyz",
        body := .null }).1.status = 401 :=
  c4_missing_bearer_always_401 demoDb "g" "r" _ (by decide) (by decide) (by decide)

/-- Claim C2 (failing input): an authenticated create-report request whose
body carries no id. The handler binds the generated id into the stored
row, but answers `{id: id}` with the raw body field, so the 201 response
body carries no id at all — `JSON.stringify` drops the undefined value —
while a body that does carry an id gets it echoed. -/
theorem c2_create_report_generated_id_not_echoed :
    (createReport demoDb 1 "gen-uuid" (.obj [])).1.status = 201
    ∧ jsGet (createReport demoDb 1 "gen-uuid" (.obj [])).1.body "id" = none
    ∧ (createReport demoDb 1 "gen-uuid" (.obj [])).2.reports.map (fun r => r.id)
        = ["gen-uuid"]
    ∧ jsGet (createReport demoDb 1 "gen-uuid" (.obj [("id", .str "r9")])).1.body "id"
        = some (.str "r9") := by
  refine ⟨by decide, by decide, by decide, by decide⟩

/-- Claim C3 (failing input): an authenticated POST to `/reports/search`.
In the deployed router the prefix branch for `/reports/` swallows the path
and, finding no POST verb among the single-report routes, answers 404; the
later exact `/reports/search` comparison is unreachable. The corrected
variant of `part_001` orders the exact route first and reaches the search
handler, answering 200. -/
theorem c3_search_route_misrouted :
    (onRequest demoDb "g" "r"
      { method := .POST, path := "/reports/search", authHeader := some "Bearer tok",
        body := .obj [("title", .str "T"), ("student", .str "S")] }).1.status = 404
    ∧ (PartOne.onRequest demoDb "g" "r"
      { method := .POST, path := "/reports/search", authHeader := some "Bearer tok",
        body := .obj [("title", .str "T"), ("student", .str "S")] }).1.status = 200 := by
  refine ⟨by decide, by decide⟩

/-- Claim C10: in the ownership-checking variant, a DELETE `/lists/{id}`
whose id segment does not parse as an integer is answered 400 with
`Invalid ID format`, untouched store — an outcome the failure-mode table
of the spec does not list. -/
theorem c10_delete_list_invalid_id_format (db : DB) (userId : Nat) (id : String)
    (h : jsParseInt id = none) :
    PartOne.deleteList db userId id
      = (errorResponse "Invalid ID format" 400, db) := by
  unfold PartOne.deleteList
  rw [h]

/-- Witness for C10 at the id `"abc"`. -/
theorem c10_witness :
    PartOne.deleteList demoDb 1 "abc" = (errorResponse "Invalid ID format" 400, demoDb) :=
  c10_delete_list_invalid_id_format demoDb 1 "abc" (by decide)

/-- Claim C5 (counterexample): a DELETE `/lists/x` where no list with id
`"x"` exists is answered 400, not the 404 the claim requires for a missing
target. -/
theorem c5_nonint_id_counterexample :
    (PartOne.deleteList demoDb 1 "x").1.status = 400
    ∧ ¬(PartOne.deleteList demoDb 1 "x").1.status = 404 := by
  refine ⟨by decide, by decide⟩

/-- When an element satisfying the predicate is unique, it is the one
`find?` returns. -/
theorem find?_eq_some_of_unique {α : Type} (p : α → Bool) (l : List α) (a : α)
    (ha : a ∈ l) (hpa : p a = true) (huniq : ∀ b ∈ l, p b = true → b = a) :
    l.find? p = some a := by
  induction l with
  | nil => cases ha
  | cons x xs ih =>
    by_cases hx : p x = true
    · have hxa : x = a := huniq x (by simp) hx
      subst hxa
      simp [List.find?_cons_of_pos _ hx]
    · rw [List.find?_cons_of_neg _ (by simp [hx])]
      rcases List.mem_cons.mp ha with rfl | ha'
      · exact absurd hpa hx
      · exact ih ha' (fun b hb hpb => huniq b (by simp [hb]) hpb)

/-- Claim C5 as amended: for an id segment that parses as an integer
(every other segment is answered 400, see C10), the ownership-checking
delete answers 404 when no list with the parsed id exists, 403 when one
exists but belongs to another user, and 200 with the row removed when the
caller owns it; only the 200 outcome changes the store. -/
theorem c5_delete_list_trichotomy (db : DB) (userId : Nat) (idStr : String) (n : Int)
    (hp : jsParseInt idStr = some n) :
    ((∀ l ∈ db.lists, (l.id : Int) ≠ n) →
      PartOne.deleteList db userId idStr = (errorResponse "List not found" 404, db))
    ∧ (∀ l ∈ db.lists, (l.id : Int) = n →
        (∀ l' ∈ db.lists, (l'.id : Int) = n → l' = l) →
        ((l.user_id ≠ userId →
          PartOne.deleteList db userId idStr = (errorResponse "Not authorized" 403, db))
        ∧ (l.user_id = userId →
          (PartOne.deleteList db userId idStr).1.status = 200
          ∧ (PartOne.deleteList db userId idStr).2.lists
              = db.lists.filter (fun l' => !decide ((l'.id : Int) = n ∧ l'.user_id = userId))
          ∧ l ∉ (PartOne.deleteList db userId idStr).2.lists))) := by
  constructor
  · intro habs
    have hfind : db.lists.find? (fun l => decide ((l.id : Int) = n)) = none := by
      refine List.find?_eq_none.mpr ?_
      intro l hl
      simp only [decide_eq_true_eq]
      exact habs l hl
    simp only [PartOne.deleteList, hp, hfind]
  · intro l hl hln huniq
    have hfind : db.lists.find? (fun l' => decide ((l'.id : Int) = n)) = some l := by
      refine find?_eq_some_of_unique _ _ l hl (by simp [hln]) ?_
      intro b hb hpb
      exact huniq b hb (by simpa using hpb)
    constructor
    · intro hne
      simp only [PartOne.deleteList, hp, hfind]
      rw [if_pos hne]
    · intro hown
      have haff : 0 < (db.lists.filter (fun l' =>
          decide ((l'.id : Int) = n ∧ l'.user_id = userId))).length := by
        refine List.length_pos.mpr ?_
        intro hemp
        have hmem : l ∈ db.lists.filter (fun l' =>
            decide ((l'.id : Int) = n ∧ l'.user_id = userId)) := by
          rw [List.mem_filter]
          exact ⟨hl, by simp [hln, hown]⟩
        rw [hemp] at hmem
        exact absurd hmem (List.not_mem_nil l)
      simp only [PartOne.deleteList, hp, hfind]
      rw [if_neg (by simp [hown]), if_neg (by omega)]
      refine ⟨rfl, rfl, ?_⟩
      intro hmem
      rw [List.mem_filter] at hmem
      have h2 := hmem.2
      simp [hln, hown] at h2

/-- Witness for C5: all three branches of the trichotomy at a concrete
store — owner deletes with 200, a different caller gets 403, a missing id
gets 404. -/
theorem c5_witness :
    (PartOne.deleteList demoListDb 1 "5").1.status = 200
    ∧ PartOne.deleteList demoListDb 2 "5" = (errorResponse "Not authorized" 403, demoListDb)
    ∧ PartOne.deleteList demoListDb 1 "9" = (errorResponse "List not found" 404, demoListDb) := by
  refine ⟨?_, ?_, ?_⟩
  · exact (((c5_delete_list_trichotomy demoListDb 1 "5" 5 (by decide)).2 demoList (by decide)
      (by decide) (by decide)).2 (by decide)).1
  · exact ((c5_delete_list_trichotomy demoListDb 2 "5" 5 (by decide)).2 demoList (by decide)
      (by decide) (by decide)).1 (by decide)
  · exact (c5_delete_list_trichotomy demoListDb 1 "9" 9 (by decide)).1 (by decide)

/-- Claim C7 (counterexample): after a successful registration of
`a@x.com`, a second registration with the same email but an empty name is
answered 400 by the field validation, not the 409 the claim requires for
every value of the other fields. -/
theorem c7_empty_field_counterexample :
    (registerUser (registerUser emptyDb "t1" (.obj [("name", .str "A"),
        ("email", .str "a@x.com"), ("university", .str "U"), ("password", .str "p")])).2
      "t2" (.obj [("name", .str ""), ("email", .str "a@x.com"),
        ("university", .str "U2"), ("password", .str "q")])).1.status = 400
    ∧ ¬(registerUser (registerUser emptyDb "t1" (.obj [("name", .str "A"),
        ("email", .str "a@x.com"), ("university", .str "U"), ("password", .str "p")])).2
      "t2" (.obj [("name", .str ""), ("email", .str "a@x.com"),
        ("university", .str "U2"), ("password", .str "q")])).1.status = 409 := by
  refine ⟨by decide, by decide⟩

/-- Claim C7 as amended: a second registration with the email of an
already successful one is answered 409 whatever the other fields hold,
provided name, university and password are present and truthy — a second
request missing one of them is answered 400 by the validation that runs
before the duplicate-email check. -/
theorem c7_duplicate_email_conflict (db : DB) (t1 t2 : String) (b1 b2 : Json)
    (h1 : (registerUser db t1 b1).1.status = 201)
    (he : jsGet b2 "email" = jsGet b1 "email")
    (hn : truthyOpt (jsGet b2 "name") = true)
    (hu : truthyOpt (jsGet b2 "university") = true)
    (hp : truthyOpt (jsGet b2 "password") = true) :
    (registerUser (registerUser db t1 b1).2 t2 b2).1.status = 409 := by
  by_cases hval : (truthyOpt (jsGet b1 "name") && truthyOpt (jsGet b1 "email")
      && truthyOpt (jsGet b1 "university") && truthyOpt (jsGet b1 "password")) = true
  · by_cases hdup : (db.users.find? (fun u =>
        decide (u.email = (jsGet b1 "email").getD .null))).isSome = true
    · simp [registerUser, hval, hdup, errorResponse] at h1
    · by_cases htokc : db.users.any (fun u => decide (u.token = some t1)) = true
      · simp [registerUser, hval, hdup, htokc, errorResponse] at h1
      · have hdb' : (registerUser db t1 b1).2 =
            { db with
              users := db.users ++ [⟨db.nextUserId, (jsGet b1 "name").getD .null,
                (jsGet b1 "email").getD .null, (jsGet b1 "university").getD .null,
                (jsGet b1 "password").getD .null, some t1⟩],
              nextUserId := db.nextUserId + 1 } := by
          simp [registerUser, hval, hdup, htokc]
        have hmail : truthyOpt (jsGet b2 "email") = true := by
          rw [he]
          simp only [Bool.and_eq_true] at hval
          exact hval.1.1.2
        have hval2 : (truthyOpt (jsGet b2 "name") && truthyOpt (jsGet b2 "email")
            && truthyOpt (jsGet b2 "university") && truthyOpt (jsGet b2 "password")) = true := by
          simp [hn, hu, hp, hmail]
        have hfound : ((registerUser db t1 b1).2.users.find? (fun u =>
            decide (u.email = (jsGet b2 "email").getD .null))).isSome = true := by
          rw [hdb']
          refine List.find?_isSome.mpr ?_
          refine ⟨⟨db.nextUserId, (jsGet b1 "name").getD .null,
            (jsGet b1 "email").getD .null, (jsGet b1 "university").getD .null,
            (jsGet b1 "password").getD .null, some t1⟩, by simp, by simp [he]⟩
        generalize hg : (registerUser db t1 b1).2 = db1 at hfound ⊢
        simp [registerUser, hval2, hfound, errorResponse]
  · simp [registerUser, hval, errorResponse] at h1

/-- Witness for C7 at a concrete store: the second registration repeats
the email with different truthy fields and is answered 409. -/
theorem c7_witness :
    (registerUser (registerUser emptyDb "t1" (.obj [("name", .str "A"),
        ("email", .str "a@x.com"), ("university", .str "U"), ("password", .str "p")])).2
      "t2" (.obj [("name", .str "B"), ("email", .str "a@x.com"),
        ("university", .str "U2"), ("password", .str "q")])).1.status = 409 :=
  c7_duplicate_email_conflict emptyDb "t1" "t2" _ _ (by decide) (by decide) (by decide)
    (by decide) (by decide)

/-- Claim C8: a user row stores a single token column, so at most one live
token maps to a user; a successful login overwrites that token with the
fresh one, after which the old token resolves to no session and any
non-auth request bearing it is answered 401 by the router. -/
theorem c8_login_invalidates_old_token (db : DB) (u : UserRow) (e p : Json)
    (oldTok newTok genTok genId : String)
    (hfind : db.users.find? (fun v => decide (v.email = e ∧ v.password = p)) = some u)
    (he : jsTruthy e = true) (hp : jsTruthy p = true)
    (hold : u.token = some oldTok)
    (huniq : ∀ v ∈ db.users, v.token = some oldTok → v.id = u.id)
    (hfresh : ∀ v ∈ db.users, v.token ≠ some newTok) :
    (loginUser db newTok (.obj [("email", e), ("password", p)])).1.status = 200
    ∧ (∀ v ∈ (loginUser db newTok (.obj [("email", e), ("password", p)])).2.users,
        v.id = u.id → v.token = some newTok)
    ∧ findUserByToken oldTok
        (loginUser db newTok (.obj [("email", e), ("password", p)])).2 = none
    ∧ (∀ req : Request, req.method ≠ .OPTIONS → jsStartsWith req.path "/auth/" = false →
        extractToken req.authHeader = some oldTok →
        (onRequest (loginUser db newTok (.obj [("email", e), ("password", p)])).2
          genTok genId req).1.status = 401) := by
  have hmemu : u ∈ db.users := List.mem_of_find?_eq_some hfind
  have hne : oldTok ≠ newTok := by
    intro hcontra
    exact hfresh u hmemu (by rw [hold, hcontra])
  have hgets : jsGet (.obj [("email", e), ("password", p)]) "email" = some e := by
    simp [jsGet, jsGet.lookupField]
  have hgetp : jsGet (.obj [("email", e), ("password", p)]) "password" = some p := by
    simp [jsGet, jsGet.lookupField]
  have htokc : db.users.any (fun v => decide (v.id ≠ u.id ∧ v.token = some newTok)) = false := by
    rw [List.any_eq_false]
    intro v hv
    simp only [decide_eq_true_eq, not_and]
    intro _
    exact hfresh v hv
  have hlogin : loginUser db newTok (.obj [("email", e), ("password", p)]) =
      (jsonResponse (.obj [("user", publicUserJson
          { id := u.id, name := u.name, email := u.email, university := u.university }),
        ("token", .str newTok)]) 200,
       { db with users := db.users.map (fun v =>
           if v.id = u.id then { v with token := some newTok } else v) }) := by
    unfold loginUser
    rw [hgets, hgetp]
    simp only [Option.getD_some]
    rw [if_neg (by simp [truthyOpt, he, hp]), hfind]
    simp only [htokc, Bool.false_eq_true, if_false]
  have hnone : findUserByToken oldTok
      (loginUser db newTok (.obj [("email", e), ("password", p)])).2 = none := by
    rw [hlogin]
    unfold findUserByToken
    have : (db.users.map (fun v =>
        if v.id = u.id then { v with token := some newTok } else v)).find?
        (fun v => decide (v.token = some oldTok)) = none := by
      rw [List.find?_eq_none]
      intro w hw
      rw [List.mem_map] at hw
      obtain ⟨v, hv, rfl⟩ := hw
      by_cases hid : v.id = u.id
      · rw [if_pos hid]
        simp only [decide_eq_true_eq]
        intro hcontra
        exact hne (Option.some.inj hcontra).symm
      · rw [if_neg hid]
        simp only [decide_eq_true_eq]
        intro hcontra
        exact hid (huniq v hv hcontra)
    rw [this]
  refine ⟨by rw [hlogin]; rfl, ?_, hnone, ?_⟩
  · intro v hv hid
    rw [hlogin] at hv
    simp only [List.mem_map] at hv
    obtain ⟨w, hw, rfl⟩ := hv
    by_cases hwid : w.id = u.id
    · rw [if_pos hwid]
    · rw [if_neg hwid] at hid ⊢
      exact absurd hid hwid
  · intro req hm ha ht
    unfold onRequest
    rw [if_neg hm, if_neg (by simp [ha]), ht]
    by_cases hempty : oldTok = ""
    · simp [hempty, errorResponse]
    · simp [hempty, hnone, errorResponse]

/-- Witness for C8: `demoUser` logs in again at a concrete store; the
prior token `"tok"` then resolves to no session, and a request bearing it
gets 401. -/
theorem c8_witness :
    (loginUser demoDb "tokNew"
      (.obj [("email", .str "a@x.com"), ("password", .str "p")])).1.status = 200
    ∧ findUserByToken "tok" (loginUser demoDb "tokNew"
        (.obj [("email", .str "a@x.com"), ("password", .str "p")])).2 = none
    ∧ (onRequest (loginUser demoDb "tokNew"
          (.obj [("email", .str "a@x.com"), ("password", .str "p")])).2 "g" "r"
        { method := .GET, path := "/reports", authHeader := some "Bearer tok",
          body := .null }).1.status = 401 := by
  have h := c8_login_invalidates_old_token demoDb demoUser (.str "a@x.com") (.str "p")
    "tok" "tokNew" "g" "r" (by decide) (by decide) (by decide) (by decide)
    (by decide) (by decide)
  exact ⟨h.1, h.2.2.1, h.2.2.2
    { method := .GET, path := "/reports", authHeader := some "Bearer tok", body := .null }
    (by decide) (by decide) (by decide)⟩

/-- Claim C9 (counterexample): an authenticated POST to `/reports/r1` is
answered 404 by the deployed router, not the 405 the claim requires for a
known route with an unsupported verb. -/
theorem c9_post_report_id_counterexample :
    (onRequest demoDb "g" "r"
      { method := .POST, path := "/reports/r1", authHeader := some "Bearer tok",
        body := .null }).1.status = 404
    ∧ ¬(onRequest demoDb "g" "r"
      { method := .POST, path := "/reports/r1", authHeader := some "Bearer tok",
        body := .null }).1.status = 405 := by
  refine ⟨by decide, by decide⟩

/-- Claim C9 as amended: under a valid session, a path matching no route is
answered 404 and an unsupported verb on the exact collection routes
`/reports` and `/lists` is answered 405 (a PATCH there gets 405, not 404);
but on the parameterized `/reports/{id}` route an unsupported verb such as
POST or PATCH falls through to 404, so there the two outcomes are not
distinguishable. -/
theorem c9_amended_routing (db : DB) (genTok genId : String) (tok : String)
    (user : PublicUser) (hne : tok ≠ "") (hauth : findUserByToken tok db = some user) :
    (∀ (ah : Option String) (m : Method) (body : Json), extractToken ah = some tok →
      m ≠ .GET → m ≠ .POST → m ≠ .OPTIONS →
      (onRequest db genTok genId
        { method := m, path := "/reports", authHeader := ah, body := body }).1.status = 405)
    ∧ (∀ (ah : Option String) (m : Method) (body : Json), extractToken ah = some tok →
      m ≠ .GET → m ≠ .POST → m ≠ .OPTIONS →
      (onRequest db genTok genId
        { method := m, path := "/lists", authHeader := ah, body := body }).1.status = 405)
    ∧ (∀ (ah : Option String) (body : Json) (path seg : String) (m : Method),
      extractToken ah = some tok →
      jsStartsWith path "/auth/" = false → path ≠ "/reports" →
      jsStartsWith path "/reports/" = true →
      (jsSplit path '/').filter (fun p => decide (p ≠ "")) = ["reports", seg] →
      m = .POST ∨ m = .PATCH →
      (onRequest db genTok genId
        { method := m, path := path, authHeader := ah, body := body }).1.status = 404)
    ∧ (∀ (ah : Option String) (m : Method) (body : Json) (path : String),
      extractToken ah = some tok → m ≠ .OPTIONS →
      jsStartsWith path "/auth/" = false → path ≠ "/reports" →
      jsStartsWith path "/reports/" = false → path ≠ "/reports/search" → path ≠ "/lists" →
      (onRequest db genTok genId
        { method := m, path := path, authHeader := ah, body := body }).1.status = 404) := by
  refine ⟨?_, ?_, ?_, ?_⟩
  · intro ah m body ht hg hpo ho
    simp only [onRequest, ht, hauth]
    rw [if_neg ho, if_neg (by decide), if_neg hne, if_pos trivial, if_neg hg, if_neg hpo]
    rfl
  · intro ah m body ht hg hpo ho
    simp only [onRequest, ht, hauth]
    rw [if_neg ho, if_neg (by decide), if_neg hne, if_neg (by decide),
      if_neg (by decide), if_neg (by decide), if_pos trivial, if_neg hg, if_neg hpo]
    rfl
  · intro ah body path seg m ht ha hnr hpre hparts hm
    have ho : ¬m = Method.OPTIONS := by rcases hm with rfl | rfl <;> decide
    have hg : ¬m = Method.GET := by rcases hm with rfl | rfl <;> decide
    have hpu : ¬m = Method.PUT := by rcases hm with rfl | rfl <;> decide
    have hd : ¬m = Method.DELETE := by rcases hm with rfl | rfl <;> decide
    simp only [onRequest, ht, hauth]
    rw [if_neg ho, if_neg (by simp [ha]), if_neg hne, if_neg hnr, if_pos hpre, hparts]
    simp [hg, hpu, hd, errorResponse]
  · intro ah m body path ht ho ha hnr hpre hns hnl
    simp only [onRequest, ht, hauth]
    rw [if_neg ho, if_neg (by simp [ha]), if_neg hne, if_neg hnr,
      if_neg (by simp [hpre]), if_neg hns, if_neg hnl]
    rfl

/-- Witness for C9: at the demo store, a PATCH on `/reports` and on
`/lists` gets 405, a PATCH on `/reports/r1` gets 404, and an unknown path
gets 404. -/
theorem c9_witness :
    (onRequest demoDb "g" "r"
      { method := .PATCH, path := "/reports", authHeader := some "Bearer tok",
        body := .null }).1.status = 405
    ∧ (onRequest demoDb "g" "r"
      { method := .PATCH, path := "/lists", authHeader := some "Bearer tok",
        body := .null }).1.status = 405
    ∧ (onRequest demoDb "g" "r"
      { method := .PATCH, path := "/reports/r1", authHeader := some "Bearer tok",
        body := .null }).1.status = 404
    ∧ (onRequest demoDb "g" "r"
      { method := .GET, path := "/foo", authHeader := some "Bearer tok",
        body := .null }).1.status = 404 := by
  have h := c9_amended_routing demoDb "g" "r" "tok"
    { id := 1, name := .str "A", email := .str "a@x.com", university := .str "U" }
    (by decide) (by decide)
  exact ⟨h.1 _ _ _ (by decide) (by decide) (by decide) (by decide),
    h.2.1 _ _ _ (by decide) (by decide) (by decide) (by decide),
    h.2.2.1 _ _ "/reports/r1" "r1" _ (by decide) (by decide) (by decide) (by decide)
      (by decide) (Or.inr rfl),
    h.2.2.2 _ _ _ "/foo" (by decide) (by decide) (by decide) (by decide) (by decide)
      (by decide) (by decide)⟩

/-- Decoding a freshly stringified column always succeeds and recovers the
value: the stored text is nonempty, so the empty-column default is not
taken, and the codec round trip applies. -/
theorem decodeCol_stringify (X : Json) (d : String) :
    decodeCol (Json.stringify X) d = some X := by
  unfold decodeCol
  rw [if_neg (Json.stringify_ne_empty X), Json.parse_stringify]

/-- Claim C6: a report created and read back by its owner answers 201 then
200, and each of the six sub-documents decodes to exactly the supplied
value when one was supplied (and truthy, as every object or array is), and
to the empty object or empty sequence matching its shape when omitted. -/
theorem c6_report_roundtrip (db : DB) (userId : Nat) (genId : String) (body : Json)
    (hfresh : ∀ r ∈ db.reports, r.id ≠ storedReportId body genId) :
    (createReport db userId genId body).1.status = 201
    ∧ (getReport (createReport db userId genId body).2 userId
        (storedReportId body genId)).status = 200
    ∧ (∀ key d, ((key, d) ∈ ([("infoGeneral", Json.obj []), ("configuracion", Json.obj []),
          ("feedback", Json.obj []), ("resultados", Json.obj []),
          ("nivelesDesempeno", Json.arr []), ("criterios", Json.arr [])]
          : List (String × Json))) →
        (∀ v, jsGet body key = some v → jsTruthy v = true →
          jsGet (getReport (createReport db userId genId body).2 userId
            (storedReportId body genId)).body key = some v)
        ∧ (jsGet body key = none →
          jsGet (getReport (createReport db userId genId body).2 userId
            (storedReportId body genId)).body key = some d)) := by
  have hany : db.reports.any (fun r => decide (r.id = storedReportId body genId)) = false := by
    rw [List.any_eq_false]
    intro r hr
    simp [hfresh r hr]
  have hstat : (createReport db userId genId body).1.status = 201 := by
    unfold createReport
    rw [if_neg (by simp [hany])]
    rfl
  have hdb2 : (createReport db userId genId body).2 =
      { db with reports := db.reports ++ [createdRow userId genId body] } := by
    unfold createReport
    rw [if_neg (by simp [hany])]
  have hfindrow : (db.reports ++ [createdRow userId genId body]).find?
      (fun r => decide (r.id = storedReportId body genId ∧ r.user_id = userId))
      = some (createdRow userId genId body) := by
    rw [List.find?_append]
    have h1 : db.reports.find? (fun r =>
        decide (r.id = storedReportId body genId ∧ r.user_id = userId)) = none := by
      rw [List.find?_eq_none]
      intro r hr
      simp [hfresh r hr]
    rw [h1]
    simp [List.find?, createdRow]
  have hget : getReport (createReport db userId genId body).2 userId
      (storedReportId body genId) = jsonResponse (.obj
        [("id", .str (storedReportId body genId)), ("user_id", .num userId),
         ("list_id", match storedListId body with | some n => .num n | none => .null),
         ("info_general", .str (encodeField body "infoGeneral" (.obj []))),
         ("configuracion", jsOr (jsGet body "configuracion") (.obj [])),
         ("niveles_desempeno", .str (encodeField body "nivelesDesempeno" (.arr []))),
         ("criterios", jsOr (jsGet body "criterios") (.arr [])),
         ("feedback", jsOr (jsGet body "feedback") (.obj [])),
         ("resultados", jsOr (jsGet body "resultados") (.obj [])),
         ("infoGeneral", jsOr (jsGet body "infoGeneral") (.obj [])),
         ("nivelesDesempeno", jsOr (jsGet body "nivelesDesempeno") (.arr []))]) 200 := by
    rw [hdb2]
    simp only [getReport]
    rw [hfindrow]
    simp only [createdRow, parsedReportJson, encodeField, decodeCol_stringify]
  refine ⟨hstat, by rw [hget]; rfl, ?_⟩
  intro key d hmem
  simp only [List.mem_cons, List.not_mem_nil, or_false, Prod.mk.injEq] at hmem
  rcases hmem with ⟨rfl, rfl⟩ | ⟨rfl, rfl⟩ | ⟨rfl, rfl⟩ | ⟨rfl, rfl⟩ | ⟨rfl, rfl⟩ | ⟨rfl, rfl⟩ <;>
    refine ⟨?_, ?_⟩ <;> rw [hget] <;> simp only [jsonResponse] <;>
    first
    | (intro v hv htv
       rw [hv]
       simp [jsGet, jsGet.lookupField, jsOr, htv])
    | (intro hnone
       rw [hnone]
       simp [jsGet, jsGet.lookupField, jsOr])

/-- Witness for C6: a report created with only `configuracion: {scale: 7}`
reads back with that object intact, the omitted object fields as `{}` and
the omitted sequence fields as `[]`. -/
theorem c6_witness :
    (createReport demoDb 1 "r1"
      (.obj [("configuracion", .obj [("scale", .num 7)])])).1.status = 201
    ∧ (getReport (createReport demoDb 1 "r1"
        (.obj [("configuracion", .obj [("scale", .num 7)])])).2 1 "r1").status = 200
    ∧ jsGet (getReport (createReport demoDb 1 "r1"
        (.obj [("configuracion", .obj [("scale", .num 7)])])).2 1 "r1").body "configuracion"
      = some (.obj [("scale", .num 7)])
    ∧ jsGet (getReport (createReport demoDb 1 "r1"
        (.obj [("configuracion", .obj [("scale", .num 7)])])).2 1 "r1").body "feedback"
      = some (.obj [])
    ∧ jsGet (getReport (createReport demoDb 1 "r1"
        (.obj [("configuracion", .obj [("scale", .num 7)])])).2 1 "r1").body "criterios"
      = some (.arr []) := by
  have h := c6_report_roundtrip demoDb 1 "r1"
    (.obj [("configuracion", .obj [("scale", .num 7)])]) (by decide)
  exact ⟨h.1, h.2.1,
    (h.2.2 "configuracion" (.obj []) (by decide)).1 (.obj [("scale", .num 7)])
      (by decide) (by decide),
    (h.2.2 "feedback" (.obj []) (by decide)).2 (by decide),
    (h.2.2 "criterios" (.arr []) (by decide)).2 (by decide)⟩
